import Mathlib

/-!
Verification of the ywkv single-table key-value store.

Shallow embedding of the core of `src/lib.rs` (the transactional access
layer `Db::read` / `Db::write`) and of the HTTP handlers and startup code
in `src/main.rs` (`read_key`, `write_key`, `DbState::new`).

Modelling choices:
* The durable state of the store is `Option Table`: `none` means the named
  table has never been created (no write transaction has ever committed);
  `some t` is the table contents as an association list with unique keys.
* Each fallible engine call (`begin_read`, `begin_write`, `open_table`,
  `get`, `insert`, `commit`) is driven by an explicit fault script: a field
  of type `Option String`, where `some msg` means the engine reports an
  I/O-level failure whose `Display` rendering is `msg`, and `none` means
  the call behaves normally.  `open_table` on a read transaction reports
  `TableDoesNotExist` exactly when the state is `none` and no I/O fault is
  scripted; `open_table` on a write transaction creates the table.
* A write transaction's mutations live only in the transaction until
  `commit` succeeds: on any error path the durable state is unchanged, as
  redb discards an uncommitted transaction.
-/

/-- A table is an association list from string keys to string values,
keys unique, first match wins. -/
abbrev Table : Type := List (String × String)

/-- Lookup of a key in a table, the model of `table.get(key)`. -/
def lookupKey (k : String) : Table → Option String
  | [] => none
  | (k', v) :: t => if k' = k then some v else lookupKey k t

/-- Insert-or-overwrite of a key, the model of `table.insert(key, val)`
restricted to its effect on the table contents. -/
def insertKey (k v : String) : Table → Table
  | [] => [(k, v)]
  | (k', v') :: t => if k' = k then (k, v) :: t else (k', v') :: insertKey k v t

/-- Fault script for the engine calls made by a read operation. -/
structure ReadFaults where
  beginRead : Option String
  openTable : Option String
  get : Option String
deriving DecidableEq, Repr

/-- Fault script for the engine calls made by a write operation. -/
structure WriteFaults where
  beginWrite : Option String
  openTable : Option String
  insert : Option String
  commit : Option String
deriving DecidableEq, Repr

/-- A run in which every engine call of the read succeeds. -/
def noReadFaults : ReadFaults := ⟨none, none, none⟩

/-- A run in which every engine call of the write succeeds. -/
def noWriteFaults : WriteFaults := ⟨none, none, none, none⟩

/-- Error type of the access layer, `YwkvError` in `src/lib.rs`.
`Redb msg` wraps an underlying engine error with display text `msg`. -/
inductive YwkvError where
  | Redb (msg : String)
  | KeyMissing (key : String)
  | EmptyTable (key : String)
deriving DecidableEq, Repr

/-- The read operation `Db::read` of `src/lib.rs`:
begin a read transaction, open the table (a `TableDoesNotExist` outcome is
mapped to `EmptyTable(key)`, any other engine error to the `Redb` wrapper),
then look the key up: present gives the value, absent gives
`KeyMissing(key)`. -/
def Db.read (f : ReadFaults) (st : Option Table) (key : String) :
    Except YwkvError String :=
  match f.beginRead with
  | some msg => .error (.Redb msg)
  | none =>
    match f.openTable with
    | some msg => .error (.Redb msg)
    | none =>
      match st with
      | none => .error (.EmptyTable key)
      | some t =>
        match f.get with
        | some msg => .error (.Redb msg)
        | none =>
          match lookupKey key t with
          | some v => .ok v
          | none => .error (.KeyMissing key)

/-- The write operation `Db::write` of `src/lib.rs`:
begin a write transaction, open (creating if necessary) the table, insert
the value capturing the prior value, commit.  The second component is the
durable state after the call: unchanged on every error path (the
uncommitted transaction is discarded), the mutated table on success. -/
def Db.write (f : WriteFaults) (st : Option Table) (key val : String) :
    Except YwkvError (Option String) × Option Table :=
  match f.beginWrite with
  | some msg => (.error (.Redb msg), st)
  | none =>
    match f.openTable with
    | some msg => (.error (.Redb msg), st)
    | none =>
      let t := st.getD []
      match f.insert with
      | some msg => (.error (.Redb msg), st)
      | none =>
        let old := lookupKey key t
        let t' := insertKey key val t
        match f.commit with
        | some msg => (.error (.Redb msg), st)
        | none => (.ok old, some t')

/-- One logical operation against the store, as the access layer exposes
them: a read or a write, each with its engine fault script. -/
inductive Op where
  | readOp (f : ReadFaults) (key : String)
  | writeOp (f : WriteFaults) (key val : String)

/-- Effect of one operation on the durable state.  `Db::read` takes
`&self`, opens only a read transaction and never commits, so it leaves the
state unchanged; `Db::write` yields the state component of `Db.write`. -/
def stepOp (st : Option Table) : Op → Option Table
  | .readOp _ _ => st
  | .writeOp f k v => (Db.write f st k v).2

/-- Effect of a sequence of operations on the durable state. -/
def runOps (st : Option Table) : List Op → Option Table
  | [] => st
  | op :: ops => runOps (stepOp st op) ops

/-- Whether the key is present in the (possibly never-created) table. -/
def hasKey (st : Option Table) (k : String) : Bool :=
  match st with
  | none => false
  | some t => (lookupKey k t).isSome

/-! HTTP layer of `src/main.rs`. -/

/-- The `ReadStatus` enum of `src/main.rs`. -/
inductive ReadStatus where
  | Found
  | Missing
  | Failure
deriving DecidableEq, Repr

/-- The `WriteStatus` enum of `src/main.rs`. -/
inductive WriteStatus where
  | SuccessNew
  | SuccessOverwrite
  | Failure
deriving DecidableEq, Repr

/-- The untagged `Status` union of `src/main.rs`. -/
inductive Status where
  | Read (s : ReadStatus)
  | Write (s : WriteStatus)
deriving DecidableEq, Repr

/-- The response body of `src/main.rs`: a value string and a status tag. -/
structure Response where
  value : String
  status : Status
deriving DecidableEq, Repr

/-- Display text of redb's `TableDoesNotExist` error, which `read_key`
in `src/main.rs` does not special-case but formats with `to_string()`. -/
def tableMissingMsg : String := "Table does not exist"

/-- The helper `Response::from_read_error` of `src/main.rs`: status 500
with the error text as the value and `ReadStatus::Failure`. -/
def from_read_error (msg : String) : Nat × Response :=
  (500, ⟨msg, .Read .Failure⟩)

/-- The helper `Response::from_write_error` of `src/main.rs`: status 500
with the error text as the value and `WriteStatus::Failure`. -/
def from_write_error (msg : String) : Nat × Response :=
  (500, ⟨msg, .Write .Failure⟩)

/-- Mode in which a handler acquires the process-level
`tokio::sync::RwLock` around the `Db` handle. -/
inductive LockMode where
  | sharedMode
  | exclusiveMode
deriving DecidableEq, Repr

/-- Lock acquisition of `read_key` in `src/main.rs`:
`let db = state.read().await` — shared mode. -/
def read_key_lock : LockMode := .sharedMode

/-- Lock acquisition of `write_key` in `src/main.rs`:
`let db = state.read().await` — also shared mode, not `state.write()`. -/
def write_key_lock : LockMode := .sharedMode

/-- The GET handler `read_key` of `src/main.rs`.  Any error from
`begin_read`, `open_table` (including `TableDoesNotExist` on a
never-created table) or `get` goes through `from_read_error` to a 500;
a found value gives 200/`Found`, an absent key 404/`Missing`. -/
def read_key (f : ReadFaults) (st : Option Table) (key : String) :
    Nat × Response :=
  match f.beginRead with
  | some msg => from_read_error msg
  | none =>
    match f.openTable with
    | some msg => from_read_error msg
    | none =>
      match st with
      | none => from_read_error tableMissingMsg
      | some t =>
        match f.get with
        | some msg => from_read_error msg
        | none =>
          match lookupKey key t with
          | some v => (200, ⟨v, .Read .Found⟩)
          | none => (404, ⟨"", .Read .Missing⟩)

/-- The POST handler `write_key` of `src/main.rs`.  Builds the response
before committing: on overwrite the old value with `SuccessOverwrite`, on
creation the empty string with `SuccessNew`; every error path goes through
`from_write_error` to a 500; success is always `StatusCode::OK` (200).
The second component is the durable state after the call. -/
def write_key (f : WriteFaults) (st : Option Table) (key payload : String) :
    (Nat × Response) × Option Table :=
  match f.beginWrite with
  | some msg => (from_write_error msg, st)
  | none =>
    match f.openTable with
    | some msg => (from_write_error msg, st)
    | none =>
      let t := st.getD []
      match f.insert with
      | some msg => (from_write_error msg, st)
      | none =>
        let resp : Response :=
          match lookupKey key t with
          | some v => ⟨v, .Write .SuccessOverwrite⟩
          | none => ⟨"", .Write .SuccessNew⟩
        let t' := insertKey key payload t
        match f.commit with
        | some msg => (from_write_error msg, st)
        | none => ((200, resp), some t')

/-- Outcome of process startup, `DbState::new` in `src/main.rs`. -/
inductive StartupOutcome where
  | usedExisting
  | usedCreated
  | panicked
deriving DecidableEq, Repr

/-- The constructor `DbState::new` of `src/main.rs`: try
`Database::open(path)`; if that fails, `Database::create(path).unwrap()`,
whose `unwrap` panics the process when creation also fails.  The engine
outcomes of open and create are abstracted to success flags. -/
def dbStateNew (openSucceeds createSucceeds : Bool) : StartupOutcome :=
  if openSucceeds then .usedExisting
  else if createSucceeds then .usedCreated
  else .panicked


/-! Helper lemmas about the association-list table. -/

theorem lookupKey_insertKey_self (k v : String) (t : Table) :
    lookupKey k (insertKey k v t) = some v := by
  induction t with
  | nil => simp [insertKey, lookupKey]
  | cons p t ih =>
    obtain ⟨k', v'⟩ := p
    by_cases h : k' = k
    · simp [insertKey, h, lookupKey]
    · simp [insertKey, h, lookupKey, ih]

theorem lookupKey_insertKey_ne (k kw v : String) (t : Table) (h : kw ≠ k) :
    lookupKey k (insertKey kw v t) = lookupKey k t := by
  induction t with
  | nil => simp [insertKey, lookupKey, h]
  | cons p t ih =>
    obtain ⟨k', v'⟩ := p
    by_cases h' : k' = kw
    · subst h'
      simp [insertKey, lookupKey, h]
    · by_cases h'' : k' = k
      · simp [insertKey, lookupKey, h', h'', Ne.symm h]
      · simp [insertKey, lookupKey, h', h'', ih]

theorem lookupKey_insertKey_isSome (k kw v : String) (t : Table)
    (h : (lookupKey k t).isSome = true) :
    (lookupKey k (insertKey kw v t)).isSome = true := by
  by_cases hk : kw = k
  · subst hk
    simp [lookupKey_insertKey_self]
  · rw [lookupKey_insertKey_ne k kw v t hk]
    exact h

/-- Case analysis of one write call: either every engine call succeeded
and the call returns the prior value while the table becomes the mutated
one, or some engine call failed, the call returns the wrapped engine error
and the durable state is untouched. -/
theorem Db.write_cases (f : WriteFaults) (st : Option Table) (k v : String) :
    (f = noWriteFaults ∧
      Db.write f st k v =
        (.ok (lookupKey k (st.getD [])), some (insertKey k v (st.getD [])))) ∨
    (∃ msg, (Db.write f st k v).1 = .error (.Redb msg) ∧
      (Db.write f st k v).2 = st) := by
  obtain ⟨b, o, i, c⟩ := f
  cases b with
  | some msg => exact Or.inr ⟨msg, rfl, rfl⟩
  | none =>
    cases o with
    | some msg => exact Or.inr ⟨msg, rfl, rfl⟩
    | none =>
      cases i with
      | some msg => exact Or.inr ⟨msg, rfl, rfl⟩
      | none =>
        cases c with
        | some msg => exact Or.inr ⟨msg, rfl, rfl⟩
        | none => exact Or.inl ⟨rfl, rfl⟩

/-- C1: for every key, `Db::read` returns exactly one of the specified
outcomes: an engine failure while beginning the transaction or opening the
table is reported as the wrapped engine error; on a never-created table it
fails with `EmptyTable(key)`; on an existing table a present key yields its
current value and an absent key fails with `KeyMissing(key)`. -/
theorem read_outcomes (f : ReadFaults) (st : Option Table) (k : String) :
    ((f.beginRead ≠ none ∨ f.openTable ≠ none) →
      ∃ msg, Db.read f st k = .error (.Redb msg)) ∧
    (Db.read noReadFaults none k = .error (.EmptyTable k)) ∧
    (∀ t v, lookupKey k t = some v →
      Db.read noReadFaults (some t) k = .ok v) ∧
    (∀ t, lookupKey k t = none →
      Db.read noReadFaults (some t) k = .error (.KeyMissing k)) := by
  refine ⟨?_, rfl, ?_, ?_⟩
  · intro hf
    obtain ⟨b, o, g⟩ := f
    cases b with
    | some msg => exact ⟨msg, rfl⟩
    | none =>
      cases o with
      | some msg => exact ⟨msg, rfl⟩
      | none => simp at hf
  · intro t v hv
    simp [Db.read, noReadFaults, hv]
  · intro t hv
    simp [Db.read, noReadFaults, hv]

/-- Witness for C1 at concrete inputs: an I/O fault at `begin_read`, a
fresh store, a populated table with the key, and a populated table without
it. -/
theorem read_outcomes_witness :
    (∃ msg, Db.read ⟨some "io", none, none⟩ none "k" = .error (.Redb msg)) ∧
    Db.read noReadFaults none "k" = .error (.EmptyTable "k") ∧
    Db.read noReadFaults (some [("k", "v")]) "k" = .ok "v" ∧
    Db.read noReadFaults (some [("a", "v")]) "k" =
      .error (.KeyMissing "k") := by
  refine ⟨(read_outcomes ⟨some "io", none, none⟩ none "k").1 (Or.inl (by simp)),
    (read_outcomes noReadFaults none "k").2.1,
    (read_outcomes noReadFaults (some [("k", "v")]) "k").2.2.1 _ "v" (by decide),
    (read_outcomes noReadFaults (some [("a", "v")]) "k").2.2.2 _ (by decide)⟩

/-- C2: a successful `Db::write` returns the prior value at the key
(`some` on overwrite, `none` on creation); in particular two successive
writes of `v1` then `v2` to a key with no entry return `none` then
`some v1`. -/
theorem write_overwrite_signalling (f : WriteFaults) (st : Option Table)
    (k v1 v2 : String) (r : Option String) :
    ((Db.write f st k v1).1 = .ok r → r = lookupKey k (st.getD [])) ∧
    (lookupKey k (st.getD []) = none →
      (Db.write noWriteFaults st k v1).1 = .ok none ∧
      (Db.write noWriteFaults (Db.write noWriteFaults st k v1).2 k v2).1 =
        .ok (some v1)) := by
  constructor
  · intro hr
    rcases Db.write_cases f st k v1 with ⟨_, hw⟩ | ⟨msg, h1, _⟩
    · rw [hw] at hr
      exact (Except.ok.injEq _ _).mp hr.symm
    · rw [h1] at hr
      exact absurd hr (by simp)
  · intro hnone
    have hw : Db.write noWriteFaults st k v1 =
        (.ok (lookupKey k (st.getD [])), some (insertKey k v1 (st.getD []))) := by
      rcases Db.write_cases noWriteFaults st k v1 with ⟨_, hw⟩ | ⟨msg, h1, _⟩
      · exact hw
      · exact absurd h1 (by simp [Db.write, noWriteFaults])
    refine ⟨by rw [hw, hnone], ?_⟩
    rw [hw]
    simp [Db.write, noWriteFaults, lookupKey_insertKey_self]

/-- Witness for C2: the scenario of the spec on an empty store with key
`a` and values `1` then `2`. -/
theorem write_overwrite_signalling_witness :
    ((none : Option String) = lookupKey "a" ((none : Option Table).getD [])) ∧
    (Db.write noWriteFaults none "a" "1").1 = .ok none ∧
    (Db.write noWriteFaults (Db.write noWriteFaults none "a" "1").2 "a" "2").1 =
      .ok (some "1") :=
  ⟨(write_overwrite_signalling noWriteFaults none "a" "1" "2" none).1 rfl,
   (write_overwrite_signalling noWriteFaults none "a" "1" "2" none).2 rfl⟩

/-- C3: a successful write of value `v` at key `k`, immediately followed
by a fault-free read of `k` against the resulting state, returns `v`. -/
theorem write_read_roundtrip (f : WriteFaults) (st : Option Table)
    (k v : String) (h : ∃ r, (Db.write f st k v).1 = .ok r) :
    Db.read noReadFaults (Db.write f st k v).2 k = .ok v := by
  obtain ⟨r, hr⟩ := h
  rcases Db.write_cases f st k v with ⟨_, hw⟩ | ⟨msg, h1, _⟩
  · rw [hw]
    simp [Db.read, noReadFaults, lookupKey_insertKey_self]
  · rw [h1] at hr
    exact absurd hr (by simp)

/-- Witness for C3: write `1` at `a` on an empty store, then read `a`. -/
theorem write_read_roundtrip_witness :
    Db.read noReadFaults (Db.write noWriteFaults none "a" "1").2 "a" = .ok "1" :=
  write_read_roundtrip noWriteFaults none "a" "1" ⟨none, rfl⟩

/-- C4: write atomicity — when `Db::write` returns an error the durable
table is exactly its pre-call state, and when it returns success the
durable table is exactly the pre-call state with the single mutation
applied (committed before the call returns). -/
theorem write_atomicity (f : WriteFaults) (st : Option Table) (k v : String) :
    (∀ e, (Db.write f st k v).1 = .error e → (Db.write f st k v).2 = st) ∧
    (∀ r, (Db.write f st k v).1 = .ok r →
      (Db.write f st k v).2 = some (insertKey k v (st.getD []))) := by
  rcases Db.write_cases f st k v with ⟨_, hw⟩ | ⟨msg, h1, h2⟩
  · constructor
    · intro e he
      rw [hw] at he
      exact absurd he (by simp)
    · intro r _
      rw [hw]
  · constructor
    · intro e _
      exact h2
    · intro r hr
      rw [h1] at hr
      exact absurd hr (by simp)

/-- Witness for C4: a fault at `begin_write` leaves the fresh store fresh;
a fault-free write on the fresh store commits the one-record table. -/
theorem write_atomicity_witness :
    (Db.write ⟨some "io", none, none, none⟩ none "a" "1").2 = none ∧
    (Db.write noWriteFaults none "a" "1").2 =
      some (insertKey "a" "1" ((none : Option Table).getD [])) :=
  ⟨(write_atomicity ⟨some "io", none, none, none⟩ none "a" "1").1
      (.Redb "io") rfl,
   (write_atomicity noWriteFaults none "a" "1").2 none rfl⟩

/-- C5 counterexample: `write_key` does not acquire the process-level
read/write lock in exclusive mode — the source line is
`let db = state.read().await`, a shared acquisition. -/
theorem write_key_lock_not_exclusive :
    write_key_lock ≠ LockMode.exclusiveMode := by decide

/-- C5 amended: every write operation acquires the process-level
read/write lock in shared mode, the same mode the read handler uses, so
the process-level lock does not enforce write exclusivity (that is left to
the storage engine). -/
theorem write_key_lock_shared :
    write_key_lock = LockMode.sharedMode ∧
    read_key_lock = LockMode.sharedMode :=
  ⟨rfl, rfl⟩

/-- C6 counterexample: a read against a never-created table does not yield
404 — the handler routes the `TableDoesNotExist` error through
`from_read_error`, yielding 500. -/
theorem read_key_fresh_store_not_404 :
    (read_key noReadFaults none "k").1 ≠ 404 := by decide

/-- C6 amended: the HTTP layer maps a found value to 200, a missing key in
an existing table to 404, a read against a never-created table to 500
(`read_key` does not special-case `TableDoesNotExist`), and every engine
failure on the read or write path to 500. -/
theorem http_status_mapping (fr : ReadFaults) (fw : WriteFaults)
    (st : Option Table) (t : Table) (k v p msg : String) :
    (lookupKey k t = some v →
      read_key noReadFaults (some t) k = (200, ⟨v, .Read .Found⟩)) ∧
    (lookupKey k t = none →
      read_key noReadFaults (some t) k = (404, ⟨"", .Read .Missing⟩)) ∧
    (read_key noReadFaults none k = (500, ⟨tableMissingMsg, .Read .Failure⟩)) ∧
    ((fr.beginRead = some msg ∨ fr.openTable = some msg ∨ fr.get = some msg) →
      (read_key fr st k).1 = 500) ∧
    ((fw.beginWrite = some msg ∨ fw.openTable = some msg ∨
        fw.insert = some msg ∨ fw.commit = some msg) →
      (write_key fw st k p).1.1 = 500) := by
  refine ⟨?_, ?_, rfl, ?_, ?_⟩
  · intro hv
    simp [read_key, noReadFaults, hv]
  · intro hv
    simp [read_key, noReadFaults, hv]
  · intro hf
    obtain ⟨b, o, g⟩ := fr
    cases b with
    | some m => simp [read_key, from_read_error]
    | none =>
      cases o with
      | some m => simp [read_key, from_read_error]
      | none =>
        cases g with
        | some m =>
          cases st with
          | none => simp [read_key, from_read_error]
          | some t' => simp [read_key, from_read_error]
        | none => simp at hf
  · intro hf
    obtain ⟨b, o, i, c⟩ := fw
    cases b with
    | some m => simp [write_key, from_write_error]
    | none =>
      cases o with
      | some m => simp [write_key, from_write_error]
      | none =>
        cases i with
        | some m => simp [write_key, from_write_error]
        | none =>
          cases c with
          | some m => simp [write_key, from_write_error]
          | none => simp at hf

/-- Witness for C6 at concrete inputs: a hit, a miss, a fresh store, a
read-path engine fault and a write-path commit fault. -/
theorem http_status_mapping_witness :
    read_key noReadFaults (some [("k", "v")]) "k" = (200, ⟨"v", .Read .Found⟩) ∧
    read_key noReadFaults (some [("a", "v")]) "k" =
      (404, ⟨"", .Read .Missing⟩) ∧
    read_key noReadFaults none "k" = (500, ⟨tableMissingMsg, .Read .Failure⟩) ∧
    (read_key ⟨some "io", none, none⟩ none "k").1 = 500 ∧
    (write_key ⟨none, none, none, some "io"⟩ none "k" "v").1.1 = 500 := by
  refine ⟨(http_status_mapping noReadFaults noWriteFaults none [("k", "v")]
      "k" "v" "p" "m").1 (by decide),
    (http_status_mapping noReadFaults noWriteFaults none [("a", "v")]
      "k" "v" "p" "m").2.1 (by decide),
    (http_status_mapping noReadFaults noWriteFaults none []
      "k" "v" "p" "m").2.2.1,
    (http_status_mapping ⟨some "io", none, none⟩ noWriteFaults none []
      "k" "v" "p" "io").2.2.2.1 (Or.inl rfl),
    (http_status_mapping noReadFaults ⟨none, none, none, some "io"⟩ none []
      "k" "v" "v" "io").2.2.2.2 (Or.inr (Or.inr (Or.inr rfl)))⟩

/-- C7 counterexample: an overwrite through the HTTP write path does not
return status 201 — `write_key` returns `StatusCode::OK` (200) on every
successful commit. -/
theorem write_key_overwrite_not_201 :
    (write_key noWriteFaults (some [("k", "old")]) "k" "new").1.1 ≠ 201 := by
  decide

/-- C7 amended: on an overwrite the HTTP write path returns status 200
(not 201) with the old value as the response payload and the
`SuccessOverwrite` tag. -/
theorem write_key_overwrite_status (t : Table) (k v old : String)
    (h : lookupKey k t = some old) :
    (write_key noWriteFaults (some t) k v).1 =
      (200, ⟨old, .Write .SuccessOverwrite⟩) := by
  simp [write_key, noWriteFaults, h]

/-- Witness for C7: overwriting key `k` holding `old` with `new`. -/
theorem write_key_overwrite_status_witness :
    (write_key noWriteFaults (some [("k", "old")]) "k" "new").1 =
      (200, ⟨"old", .Write .SuccessOverwrite⟩) :=
  write_key_overwrite_status [("k", "old")] "k" "new" "old" (by decide)

/-- C8: startup first attempts to open an existing database file; on any
open failure it creates a new one; if creation also fails the process
panics at startup (the `unwrap`) rather than reporting a per-request
error. -/
theorem dbStateNew_open_or_create :
    (∀ c, dbStateNew true c = .usedExisting) ∧
    dbStateNew false true = .usedCreated ∧
    dbStateNew false false = .panicked :=
  ⟨fun _ => rfl, rfl, rfl⟩

/-- C9: no operation removes a record — along any sequence of read and
write operations, a key present in the table stays present. -/
theorem key_never_removed (ops : List Op) (st : Option Table) (k : String)
    (h : hasKey st k = true) : hasKey (runOps st ops) k = true := by
  induction ops generalizing st with
  | nil => exact h
  | cons op ops ih =>
    rw [runOps]
    refine ih _ ?_
    cases op with
    | readOp f key => exact h
    | writeOp f kw vw =>
      show hasKey (Db.write f st kw vw).2 k = true
      rcases Db.write_cases f st kw vw with ⟨_, hw⟩ | ⟨msg, _, h2⟩
      · rw [hw]
        cases st with
        | none => exact absurd h (by simp [hasKey])
        | some t =>
          simp only [hasKey, Option.getD_some]
          simp only [hasKey] at h
          exact lookupKey_insertKey_isSome k kw vw t h
      · rw [h2]
        exact h

/-- Witness for C9: key `a` survives a write to `b` and a read. -/
theorem key_never_removed_witness :
    hasKey (runOps (some [("a", "1")])
      [Op.writeOp noWriteFaults "b" "2", Op.readOp noReadFaults "a"]) "a" =
      true :=
  key_never_removed [Op.writeOp noWriteFaults "b" "2",
    Op.readOp noReadFaults "a"] (some [("a", "1")]) "a" (by decide)

/-- C10: a read leaves the durable state unchanged, so a second read of
the same key after it returns exactly what a read before it returns. -/
theorem read_no_side_effects (f g : ReadFaults) (st : Option Table)
    (k k' : String) :
    stepOp st (Op.readOp g k') = st ∧
    Db.read f (stepOp st (Op.readOp g k')) k = Db.read f st k :=
  ⟨rfl, rfl⟩
